import Mathlib

/-!
Verification development for the PatchMon agent package-inventory core.

The Go sources are shallowly embedded: strings are Lean `String`s, the Go
string operations used by the parsers are re-implemented by structural
recursion on the character list (so all definitions are executable and
kernel-reducible), Go maps (`map[string]T`) become association lists
`List (String × T)` whose key list is `Nodup` where a claim needs map
semantics, and fallible external operations (COM property reads, child
process invocations) become explicit `Option`/`Except` valued inputs.
-/

/-- Rebuild a string from its characters. -/
def ofChars (cs : List Char) : String := String.mk cs

/-- Whitespace predicate used by Go `strings.Fields` and `strings.TrimSpace`
(`unicode.IsSpace` restricted to the code points the agent can meet in
package-manager output). -/
def goIsSpace (c : Char) : Bool :=
  c = ' ' || c = '\t' || c = '\n' || c = '\x0b' || c = '\x0c' || c = '\r' ||
    c = '\x85' || c = '\xa0'

/-- Drop characters satisfying `p` from both ends of a character list. -/
def trimEnds (p : Char → Bool) (cs : List Char) : List Char :=
  ((cs.dropWhile p).reverse.dropWhile p).reverse

/-- Model of Go `strings.TrimSpace`. -/
def trimSpace (s : String) : String := ofChars (trimEnds goIsSpace s.data)

/-- Helper for `goFields`: split a character list on whitespace runs,
accumulating the current (reversed) field. -/
def fieldsAux : List Char → List Char → List (List Char)
  | [], acc => if acc.isEmpty then [] else [acc.reverse]
  | c :: cs, acc =>
    if goIsSpace c then
      if acc.isEmpty then fieldsAux cs [] else acc.reverse :: fieldsAux cs []
    else fieldsAux cs (c :: acc)

/-- Model of Go `strings.Fields` / `strings.FieldsSeq`: whitespace-delimited
tokens, empty tokens never produced. -/
def goFields (s : String) : List String := (fieldsAux s.data []).map ofChars

/-- Split a character list at every occurrence of `sep`, keeping empty parts
(model of Go `strings.Split` with a one-character separator). -/
def splitCharAux (sep : Char) : List Char → List Char → List (List Char)
  | [], acc => [acc.reverse]
  | c :: cs, acc =>
    if c = sep then acc.reverse :: splitCharAux sep cs []
    else splitCharAux sep cs (c :: acc)

/-- Model of splitting raw command output into lines (Go `bufio.Scanner`
line splitting and `strings.SplitSeq(out, "\n")`; every parser in the
sources skips empty lines, for which the two agree). -/
def splitLines (s : String) : List String := (splitCharAux '\n' s.data []).map ofChars

/-- Join character lists with a separator. -/
def joinWith (sep : List Char) : List (List Char) → List Char
  | [] => []
  | [x] => x
  | x :: y :: rest => x ++ sep ++ joinWith sep (y :: rest)

/-- Join strings with a single space (Go `strings.Join(parts, " ")`). -/
def joinSpace (l : List String) : String := ofChars (joinWith [' '] (l.map String.data))

/-- Model of Go `strings.SplitN(s, " ", n)`: at most `n` parts, the last part
keeps the remaining separators. -/
def splitNSpace (s : String) (n : Nat) : List String :=
  let ps := splitCharAux ' ' s.data []
  if ps.length ≤ n then ps.map ofChars
  else (ps.take (n - 1)).map ofChars ++ [ofChars (joinWith [' '] (ps.drop (n - 1)))]

/-- Model of Go `strings.HasPrefix`. -/
def strStartsWith (s p : String) : Bool := p.data.isPrefixOf s.data

/-- Model of Go `strings.HasSuffix`. -/
def strEndsWith (s p : String) : Bool := p.data.reverse.isPrefixOf s.data.reverse

/-- Helper for `containsSubstr`: does `p` occur in the given suffix list. -/
def substrAux (p : List Char) : List Char → Bool
  | [] => p.isEmpty
  | c :: cs => p.isPrefixOf (c :: cs) || substrAux p cs

/-- Model of Go `strings.Contains`. -/
def containsSubstr (s p : String) : Bool := substrAux p.data s.data

/-- ASCII lowering of one character (the only case the agent relies on:
`strings.ToLower` before searching for the ASCII word "security"). -/
def lowerChar (c : Char) : Char :=
  if 'A' ≤ c && c ≤ 'Z' then Char.ofNat (c.toNat + 32) else c

/-- Model of Go `strings.ToLower`, ASCII fragment. -/
def toLowerStr (s : String) : String := ofChars (s.data.map lowerChar)

/-- Canonical package record, from `pkg/models/models.go` (`models.Package`).
Go zero values are the empty string and `false`. -/
structure Package where
  name : String
  description : String
  currentVersion : String
  availableVersion : String
  needsUpdate : Bool
  isSecurityUpdate : Bool
deriving DecidableEq, Inhabited, Repr

/-- First-match lookup in an association list, modelling indexing a Go
`map[string]models.Package` (keys are unique in an actual map). -/
def mapLookup : List (String × Package) → String → Option Package
  | [], _ => none
  | (k0, v0) :: rest, k => if k0 = k then some v0 else mapLookup rest k

/-- Enrichment step of `CombinePackageData` (packages.go, first loop body):
an upgradable entry with an empty description inherits the description of the
same-named installed entry; any other field is left untouched. -/
def enrichFromInstalled (installed : List (String × Package)) (pkg : Package) : Package :=
  match mapLookup installed pkg.name with
  | some installedPkg =>
    if pkg.description = "" then { pkg with description := installedPkg.description } else pkg
  | none => pkg

/-- Second loop of `CombinePackageData` (packages.go): installed entries whose
key is not among the upgradable names are emitted with `needsUpdate = false`,
`isSecurityUpdate = false`, carrying over only name and current version. -/
def installedOnly (installed : List (String × Package)) (upgradableNames : List String) :
    List Package :=
  installed.filterMap (fun kv =>
    if upgradableNames.contains kv.1 then none
    else some { name := kv.2.name, description := "", currentVersion := kv.2.currentVersion,
                availableVersion := "", needsUpdate := false, isSecurityUpdate := false })

/-- Model of `CombinePackageData` (packages.go): all upgradable entries first
(enriched), then the installed-only entries in map iteration order (the
association list order stands for the unspecified Go map iteration order). -/
def CombinePackageData (installedPackages : List (String × Package))
    (upgradablePackages : List Package) : List Package :=
  upgradablePackages.map (enrichFromInstalled installedPackages) ++
    installedOnly installedPackages (upgradablePackages.map Package.name)

example :
    CombinePackageData
      [("vim", { name := "vim", description := "", currentVersion := "2:8.2.3995-1ubuntu2.16",
                 availableVersion := "", needsUpdate := false, isSecurityUpdate := false }),
       ("bash", { name := "bash", description := "", currentVersion := "5.1-6ubuntu1",
                  availableVersion := "", needsUpdate := false, isSecurityUpdate := false })]
      [{ name := "vim", description := "", currentVersion := "2:8.2.3995-1ubuntu2.16",
         availableVersion := "2:8.2.3995-1ubuntu2.17", needsUpdate := true,
         isSecurityUpdate := false }] =
    [{ name := "vim", description := "", currentVersion := "2:8.2.3995-1ubuntu2.16",
       availableVersion := "2:8.2.3995-1ubuntu2.17", needsUpdate := true,
       isSecurityUpdate := false },
     { name := "bash", description := "", currentVersion := "5.1-6ubuntu1",
       availableVersion := "", needsUpdate := false, isSecurityUpdate := false }] := by
  decide

example : goFields "Inst vim  [1.0] (2.0 x)" = ["Inst", "vim", "[1.0]", "(2.0", "x)"] := by decide

example : splitNSpace "vim 2:8.2 Vi IMproved - enhanced" 3 =
    ["vim", "2:8.2", "Vi IMproved - enhanced"] := by decide

example : splitNSpace "a  b" 3 = ["a", "", "b"] := by decide

example : trimSpace "  a b\t" = "a b" := by decide

example : containsSubstr "Ubuntu security updates" "security" = true := by decide
example : containsSubstr "Ubuntu updates" "security" = false := by decide

/-! Helper lemmas about list indexing and filtering, used by the reconciler
claims. -/

theorem getD_append_lt {α} (d : α) :
    ∀ (l1 l2 : List α) (i : Nat), i < l1.length → (l1 ++ l2).getD i d = l1.getD i d := by
  intro l1
  induction l1 with
  | nil => intro l2 i h; simp at h
  | cons a t ih =>
    intro l2 i h
    cases i with
    | zero => rfl
    | succ j => simpa using ih l2 j (by simpa using h)

theorem getD_append_ge {α} (d : α) :
    ∀ (l1 l2 : List α) (i : Nat), l1.length ≤ i → (l1 ++ l2).getD i d = l2.getD (i - l1.length) d := by
  intro l1
  induction l1 with
  | nil => intro l2 i h; simp
  | cons a t ih =>
    intro l2 i h
    cases i with
    | zero => simp at h
    | succ j => simpa using ih l2 j (by simpa using h)

theorem getD_map_of_lt {α β} (f : α → β) (d : β) (d0 : α) :
    ∀ (l : List α) (i : Nat), i < l.length → (l.map f).getD i d = f (l.getD i d0) := by
  intro l
  induction l with
  | nil => intro i h; simp at h
  | cons a t ih =>
    intro i h
    cases i with
    | zero => rfl
    | succ j => simpa using ih j (by simpa using h)

theorem getD_mem_of_lt {α} (d : α) :
    ∀ (l : List α) (i : Nat), i < l.length → l.getD i d ∈ l := by
  intro l
  induction l with
  | nil => intro i h; simp at h
  | cons a t ih =>
    intro i h
    cases i with
    | zero => simp
    | succ j => exact List.mem_cons_of_mem a (ih j (by simpa using h))

theorem length_installedOnly (installed : List (String × Package)) (names : List String) :
    (installedOnly installed names).length =
      (installed.filter (fun kv => !(names.contains kv.1))).length := by
  induction installed with
  | nil => rfl
  | cons kv t ih =>
    unfold installedOnly at ih ⊢
    rw [List.filterMap_cons, List.filter_cons]
    by_cases h : names.contains kv.1 = true
    · rw [if_pos h, h]
      simpa using ih
    · rw [if_neg h]
      have hb : (!(names.contains kv.1)) = true := by
        cases hc : names.contains kv.1
        · rfl
        · exact absurd hc h
      rw [hb]
      simpa using ih

theorem length_filter_split {α} (p : α → Bool) (l : List α) :
    (l.filter p).length + (l.filter (fun a => !(p a))).length = l.length := by
  induction l with
  | nil => rfl
  | cons a t ih => by_cases h : p a <;> simp [List.filter_cons, h] <;> omega

theorem length_filter_fst (q : String → Bool) (l : List (String × Package)) :
    ((l.map Prod.fst).filter q).length = (l.filter (fun kv => q kv.1)).length := by
  induction l with
  | nil => rfl
  | cons kv t ih => by_cases h : q kv.1 <;> simp [List.filter_cons, h] <;> omega

theorem enrich_name (installed : List (String × Package)) (p : Package) :
    (enrichFromInstalled installed p).name = p.name := by
  unfold enrichFromInstalled
  cases mapLookup installed p.name with
  | none => rfl
  | some q => dsimp; split <;> rfl

theorem enrich_currentVersion (installed : List (String × Package)) (p : Package) :
    (enrichFromInstalled installed p).currentVersion = p.currentVersion := by
  unfold enrichFromInstalled
  cases mapLookup installed p.name with
  | none => rfl
  | some q => dsimp; split <;> rfl

theorem enrich_availableVersion (installed : List (String × Package)) (p : Package) :
    (enrichFromInstalled installed p).availableVersion = p.availableVersion := by
  unfold enrichFromInstalled
  cases mapLookup installed p.name with
  | none => rfl
  | some q => dsimp; split <;> rfl

theorem enrich_needsUpdate (installed : List (String × Package)) (p : Package) :
    (enrichFromInstalled installed p).needsUpdate = p.needsUpdate := by
  unfold enrichFromInstalled
  cases mapLookup installed p.name with
  | none => rfl
  | some q => dsimp; split <;> rfl

theorem enrich_isSecurityUpdate (installed : List (String × Package)) (p : Package) :
    (enrichFromInstalled installed p).isSecurityUpdate = p.isSecurityUpdate := by
  unfold enrichFromInstalled
  cases mapLookup installed p.name with
  | none => rfl
  | some q => dsimp; split <;> rfl

theorem enrich_description (installed : List (String × Package)) (p : Package) :
    (enrichFromInstalled installed p).description =
      (if p.description = "" then
        (match mapLookup installed p.name with
         | some ip => ip.description
         | none => p.description)
       else p.description) := by
  unfold enrichFromInstalled
  cases mapLookup installed p.name with
  | none => dsimp; split <;> rfl
  | some q => dsimp; split <;> rfl

theorem mem_installedOnly_shape (installed : List (String × Package)) (names : List String)
    (q : Package) (hq : q ∈ installedOnly installed names) :
    q.needsUpdate = false ∧ q.isSecurityUpdate = false ∧ q.description = "" ∧
      q.availableVersion = "" := by
  unfold installedOnly at hq
  rcases List.mem_filterMap.1 hq with ⟨kv, _, hkv⟩
  by_cases h : names.contains kv.1 = true
  · rw [if_pos h] at hkv
    exact absurd hkv (by simp)
  · rw [if_neg h] at hkv
    injection hkv with h2
    subst h2
    exact ⟨rfl, rfl, rfl, rfl⟩

/-- Claim C2: for every installed map and upgradable sequence, the length of
CombinePackageData is at most the sum of the input sizes, and equals that sum
minus the number of distinct names occurring both as an installed key and as
an upgradable entry name (the filtered key list is duplicate-free because the
keys are, so its length is that number; the last conjunct restates it as the
cardinality of the intersection of the two name sets). -/
theorem c2_CombinePackageData_length (installed : List (String × Package))
    (upgradable : List Package) (hkeys : (installed.map Prod.fst).Nodup) :
    (CombinePackageData installed upgradable).length ≤ installed.length + upgradable.length ∧
    (CombinePackageData installed upgradable).length =
      installed.length + upgradable.length -
        ((installed.map Prod.fst).filter
          (fun k => (upgradable.map Package.name).contains k)).length ∧
    ((installed.map Prod.fst).filter
        (fun k => (upgradable.map Package.name).contains k)).length =
      ((installed.map Prod.fst).toFinset ∩ (upgradable.map Package.name).toFinset).card := by
  set names := upgradable.map Package.name with hnames
  have hlen : (CombinePackageData installed upgradable).length =
      upgradable.length + (installed.filter (fun kv => !(names.contains kv.1))).length := by
    unfold CombinePackageData
    rw [List.length_append, List.length_map, length_installedOnly]
  have hsplit := length_filter_split (fun kv : String × Package => names.contains kv.1) installed
  have hfst := length_filter_fst (fun k => names.contains k) installed
  refine ⟨by omega, by omega, ?_⟩
  have hnd : ((installed.map Prod.fst).filter (fun k => names.contains k)).Nodup :=
    hkeys.filter _
  rw [← List.toFinset_card_of_nodup hnd]
  congr 1
  ext x
  simp [List.mem_filter]

/-- Concrete instance for claim C2: three installed packages, one of them
upgradable, giving a combined list of length 3 = 3 + 1 - 1. -/
def c2Installed : List (String × Package) :=
  [("vim", { name := "vim", description := "", currentVersion := "2:8.2.3995-1ubuntu2.16",
             availableVersion := "", needsUpdate := false, isSecurityUpdate := false }),
   ("bash", { name := "bash", description := "", currentVersion := "5.1-6ubuntu1",
              availableVersion := "", needsUpdate := false, isSecurityUpdate := false }),
   ("curl", { name := "curl", description := "", currentVersion := "7.81.0-1ubuntu1.15",
              availableVersion := "", needsUpdate := false, isSecurityUpdate := false })]

/-- Upgradable input of the concrete C2 instance. -/
def c2Upgradable : List Package :=
  [{ name := "vim", description := "", currentVersion := "2:8.2.3995-1ubuntu2.16",
     availableVersion := "2:8.2.3995-1ubuntu2.17", needsUpdate := true,
     isSecurityUpdate := false }]

/-- Witness for claim C2 at the concrete instance. -/
theorem c2_CombinePackageData_length_witness :
    (CombinePackageData c2Installed c2Upgradable).length ≤
        c2Installed.length + c2Upgradable.length ∧
    (CombinePackageData c2Installed c2Upgradable).length =
      c2Installed.length + c2Upgradable.length -
        ((c2Installed.map Prod.fst).filter
          (fun k => (c2Upgradable.map Package.name).contains k)).length ∧
    ((c2Installed.map Prod.fst).filter
        (fun k => (c2Upgradable.map Package.name).contains k)).length =
      ((c2Installed.map Prod.fst).toFinset ∩ (c2Upgradable.map Package.name).toFinset).card :=
  c2_CombinePackageData_length c2Installed c2Upgradable (by decide)

/-- Upgradable entry used to refute claim C3 as stated: the code copies
`needsUpdate` from the upgradable input unchanged, so an upgradable entry
carrying `needsUpdate = false` stays `false` in the output. -/
def c3Pkg : Package :=
  { name := "acme", description := "", currentVersion := "1.0",
    availableVersion := "", needsUpdate := false, isSecurityUpdate := false }

/-- Counterexample to claim C3 as stated: the output entry at index 0
originated from the upgradable sequence (0 < length of upgradable input, and
the output has exactly one entry), yet its `needsUpdate` is `false`, not
`true` as the claim requires of every upgradable-derived entry. -/
theorem c3_counterexample :
    (0 : Nat) < ([c3Pkg] : List Package).length ∧
    (CombinePackageData [] [c3Pkg]).length = 1 ∧
    ((CombinePackageData [] [c3Pkg]).getD 0 c3Pkg).needsUpdate = false := by
  decide

/-- Claim C3 amended: provided every upgradable input entry has
`needsUpdate = true` (which the upgrade parsers guarantee), an output entry of
CombinePackageData has `needsUpdate = true` exactly when its index lies in the
upgradable-derived head of the list; installed-only entries always come out
with `needsUpdate = false`. -/
theorem c3_needsUpdate_iff_upgradable (installed : List (String × Package))
    (upgradable : List Package) (hupg : ∀ p ∈ upgradable, p.needsUpdate = true)
    (i : Nat) (d : Package) (hi : i < (CombinePackageData installed upgradable).length) :
    ((CombinePackageData installed upgradable).getD i d).needsUpdate = true ↔
      i < upgradable.length := by
  unfold CombinePackageData at hi ⊢
  rcases Nat.lt_or_ge i upgradable.length with hlt | hge
  · have hlt2 : i < (upgradable.map (enrichFromInstalled installed)).length := by
      simpa using hlt
    rw [getD_append_lt _ _ _ _ hlt2, getD_map_of_lt _ _ d _ _ hlt, enrich_needsUpdate,
      hupg _ (getD_mem_of_lt d upgradable i hlt)]
    simp [hlt]
  · have hge2 : (upgradable.map (enrichFromInstalled installed)).length ≤ i := by
      simpa using hge
    rw [getD_append_ge _ _ _ _ hge2]
    rw [List.length_append] at hi
    have hj : i - (upgradable.map (enrichFromInstalled installed)).length <
        (installedOnly installed (upgradable.map Package.name)).length := by
      omega
    have hflags := mem_installedOnly_shape _ _ _ (getD_mem_of_lt d _ _ hj)
    rw [hflags.1]
    constructor
    · intro h
      exact absurd h (by simp)
    · intro h
      omega

/-- Installed input of the concrete C3 instance. -/
def c3WInstalled : List (String × Package) :=
  [("bash", { name := "bash", description := "GNU shell", currentVersion := "5.1",
              availableVersion := "", needsUpdate := false, isSecurityUpdate := false })]

/-- Upgradable input of the concrete C3 instance (needsUpdate set, as the
upgrade parsers produce). -/
def c3WUpgradable : List Package :=
  [{ name := "vim", description := "", currentVersion := "1.0",
     availableVersion := "2.0", needsUpdate := true, isSecurityUpdate := false }]

/-- Witness for the amended claim C3: index 0 is upgradable-derived and has
`needsUpdate = true`; index 1 is installed-only. -/
theorem c3_needsUpdate_iff_upgradable_witness :
    (((CombinePackageData c3WInstalled c3WUpgradable).getD 1 c3Pkg).needsUpdate = true ↔
      1 < c3WUpgradable.length) :=
  c3_needsUpdate_iff_upgradable c3WInstalled c3WUpgradable (by decide) 1 c3Pkg (by decide)

/-- Claim C4: for an index inside the upgradable input, the combined entry
agrees with the upgradable entry on every field except possibly the
description, and the description is the installed entry's description exactly
when the upgradable description was empty and the installed map has the name;
otherwise (in particular whenever it is non-empty) it is left untouched. -/
theorem c4_upgradable_entry_frame (installed : List (String × Package))
    (upgradable : List Package) (i : Nat) (d : Package) (hi : i < upgradable.length) :
    ((CombinePackageData installed upgradable).getD i d).name =
        (upgradable.getD i d).name ∧
    ((CombinePackageData installed upgradable).getD i d).currentVersion =
        (upgradable.getD i d).currentVersion ∧
    ((CombinePackageData installed upgradable).getD i d).availableVersion =
        (upgradable.getD i d).availableVersion ∧
    ((CombinePackageData installed upgradable).getD i d).needsUpdate =
        (upgradable.getD i d).needsUpdate ∧
    ((CombinePackageData installed upgradable).getD i d).isSecurityUpdate =
        (upgradable.getD i d).isSecurityUpdate ∧
    ((CombinePackageData installed upgradable).getD i d).description =
      (if (upgradable.getD i d).description = "" then
        (match mapLookup installed (upgradable.getD i d).name with
         | some ip => ip.description
         | none => (upgradable.getD i d).description)
       else (upgradable.getD i d).description) := by
  have hkey : (CombinePackageData installed upgradable).getD i d =
      enrichFromInstalled installed (upgradable.getD i d) := by
    unfold CombinePackageData
    have hlt2 : i < (upgradable.map (enrichFromInstalled installed)).length := by
      simpa using hi
    rw [getD_append_lt _ _ _ _ hlt2, getD_map_of_lt _ _ d _ _ hi]
  rw [hkey, enrich_name, enrich_currentVersion, enrich_availableVersion,
    enrich_needsUpdate, enrich_isSecurityUpdate, enrich_description]
  exact ⟨rfl, rfl, rfl, rfl, rfl, rfl⟩

/-- Installed input of the concrete C4 instance: same name as the upgradable
entry, with a description to inherit. -/
def c4Installed : List (String × Package) :=
  [("vim", { name := "vim", description := "Vi IMproved", currentVersion := "1.0",
             availableVersion := "", needsUpdate := false, isSecurityUpdate := false })]

/-- Default element used when indexing in the C4 witness. -/
def c4Dflt : Package :=
  { name := "", description := "", currentVersion := "", availableVersion := "",
    needsUpdate := false, isSecurityUpdate := false }

/-- Upgradable input of the concrete C4 instance (empty description). -/
def c4Upgradable : List Package :=
  [{ name := "vim", description := "", currentVersion := "1.0",
     availableVersion := "2.0", needsUpdate := true, isSecurityUpdate := false }]

/-- Witness for claim C4 at the concrete instance. -/
theorem c4_upgradable_entry_frame_witness :
    ((CombinePackageData c4Installed c4Upgradable).getD 0 c4Dflt).name =
        (c4Upgradable.getD 0 c4Dflt).name ∧
    ((CombinePackageData c4Installed c4Upgradable).getD 0 c4Dflt).currentVersion =
        (c4Upgradable.getD 0 c4Dflt).currentVersion ∧
    ((CombinePackageData c4Installed c4Upgradable).getD 0 c4Dflt).availableVersion =
        (c4Upgradable.getD 0 c4Dflt).availableVersion ∧
    ((CombinePackageData c4Installed c4Upgradable).getD 0 c4Dflt).needsUpdate =
        (c4Upgradable.getD 0 c4Dflt).needsUpdate ∧
    ((CombinePackageData c4Installed c4Upgradable).getD 0 c4Dflt).isSecurityUpdate =
        (c4Upgradable.getD 0 c4Dflt).isSecurityUpdate ∧
    ((CombinePackageData c4Installed c4Upgradable).getD 0 c4Dflt).description =
      (if (c4Upgradable.getD 0 c4Dflt).description = "" then
        (match mapLookup c4Installed (c4Upgradable.getD 0 c4Dflt).name with
         | some ip => ip.description
         | none => (c4Upgradable.getD 0 c4Dflt).description)
       else (c4Upgradable.getD 0 c4Dflt).description) :=
  c4_upgradable_entry_frame c4Installed c4Upgradable 0 c4Dflt (by decide)

/-! APT source parsing, from the APT manager source (`APTManager`). -/

namespace APTManager

/-- Go map assignment `m[k] = v` for `map[string]models.Package`: replace the
value of an existing key in place, otherwise add the binding. -/
def mapUpsert : List (String × Package) → String → Package → List (String × Package)
  | [], k, v => [(k, v)]
  | (k0, v0) :: rest, k, v =>
    if k0 = k then (k, v) :: rest else (k0, v0) :: mapUpsert rest k v

/-- One step of the `parseInstalledPackages` scanner loop: the state is the
map built so far together with the current package the next continuation line
would extend (`none` after a malformed line or at the start). -/
def installedStep (st : List (String × Package) × Option Package) (line : String) :
    List (String × Package) × Option Package :=
  let trimmedLine := trimSpace line
  if trimmedLine = "" then st
  else
    match st.2, strStartsWith line " " with
    | some currentPkg, true =>
      let updated := { currentPkg with
        description := currentPkg.description ++ "\n" ++ trimmedLine }
      (mapUpsert st.1 currentPkg.name updated, some updated)
    | _, _ =>
      let parts := splitNSpace trimmedLine 3
      if parts.length < 2 then (st.1, none)
      else
        let pkg : Package :=
          { name := parts.getD 0 "", description := parts.getD 2 "",
            currentVersion := parts.getD 1 "", availableVersion := "",
            needsUpdate := false, isSecurityUpdate := false }
        (mapUpsert st.1 (parts.getD 0 "") pkg, some pkg)

/-- Model of `APTManager.parseInstalledPackages`: fold the scanner loop over
the lines of the dpkg-query output and return the resulting map. -/
def parseInstalledPackages (output : String) : List (String × Package) :=
  ((splitLines output).foldl installedStep ([], none)).1

/-- Bracket-closing scan of `parseAPTUpgrade`: collect fields until one ends
with a closing bracket (whose single trailing bracket is cut), keeping any
others verbatim. -/
def collectBracketTail : List String → List String
  | [] => []
  | g :: rest =>
    if strEndsWith g "]" then [ofChars g.data.dropLast]
    else g :: collectBracketTail rest

/-- Go `strings.Trim(field, "[]")`: strip every leading and trailing square
bracket. -/
def trimBrackets (s : String) : String :=
  ofChars (trimEnds (fun c => c = '[' || c = ']') s.data)

/-- Current-version extraction of `parseAPTUpgrade`: the first field opening
with a bracket yields either its bracket-trimmed content (when it also closes
the bracket) or the space-join of the multi-word bracketed span. -/
def extractBracketVersion : List String → String
  | [] => ""
  | f :: rest =>
    if strStartsWith f "[" then
      if strEndsWith f "]" then trimBrackets f
      else joinSpace (ofChars (f.data.drop 1) :: collectBracketTail rest)
    else extractBracketVersion rest

/-- Available-version extraction of `parseAPTUpgrade`: the first field opening
with a parenthesis, with that parenthesis cut and nothing else stripped. -/
def extractParenVersion : List String → String
  | [] => ""
  | f :: rest =>
    if strStartsWith f "(" then ofChars (f.data.drop 1)
    else extractParenVersion rest

/-- Body of the `parseAPTUpgrade` scanner loop on one trimmed line: only
"Inst "-prefixed lines with at least 4 fields can produce a candidate, and a
candidate is produced only when name, current version and available version
are all non-empty. -/
def parseAPTUpgradeLine (line : String) : Option Package :=
  if strStartsWith line "Inst " then
    let fields := goFields line
    if fields.length < 4 then none
    else
      let packageName := fields.getD 1 ""
      let currentVersion := extractBracketVersion fields
      let availableVersion := extractParenVersion fields
      let isSecurityUpdate := containsSubstr (toLowerStr line) "security"
      if packageName ≠ "" ∧ currentVersion ≠ "" ∧ availableVersion ≠ "" then
        some { name := packageName, description := "", currentVersion := currentVersion,
               availableVersion := availableVersion, needsUpdate := true,
               isSecurityUpdate := isSecurityUpdate }
      else none
  else none

/-- Model of `APTManager.parseAPTUpgrade`: scan the upgrade-simulation output
line by line. -/
def parseAPTUpgrade (output : String) : List Package :=
  (splitLines output).filterMap (fun l => parseAPTUpgradeLine (trimSpace l))

end APTManager

example :
    APTManager.parseInstalledPackages
      "vim 2:8.2.3995-1ubuntu2.17 Vi IMproved\nlibc6 2.35-0ubuntu3.8 GNU C Library\n" =
    [("vim", { name := "vim", description := "Vi IMproved",
               currentVersion := "2:8.2.3995-1ubuntu2.17", availableVersion := "",
               needsUpdate := false, isSecurityUpdate := false }),
     ("libc6", { name := "libc6", description := "GNU C Library",
                 currentVersion := "2.35-0ubuntu3.8", availableVersion := "",
                 needsUpdate := false, isSecurityUpdate := false })] := by decide

example :
    APTManager.parseInstalledPackages "pkg 1.0 first line\n  second line\n" =
    [("pkg", { name := "pkg", description := "first line\nsecond line",
               currentVersion := "1.0", availableVersion := "",
               needsUpdate := false, isSecurityUpdate := false })] := by decide

/-- Soundness of one upgrade-simulation line parse: a produced candidate is
exactly the record built from the field list, its three version/name strings
are non-empty, and the line carried the "Inst " marker. -/
theorem parseAPTUpgradeLine_some (line : String) (p : Package)
    (h : APTManager.parseAPTUpgradeLine line = some p) :
    p.needsUpdate = true ∧ p.description = "" ∧
    p.name = (goFields line).getD 1 "" ∧
    p.currentVersion = APTManager.extractBracketVersion (goFields line) ∧
    p.availableVersion = APTManager.extractParenVersion (goFields line) ∧
    p.name ≠ "" ∧ p.currentVersion ≠ "" ∧ p.availableVersion ≠ "" ∧
    strStartsWith line "Inst " = true := by
  unfold APTManager.parseAPTUpgradeLine at h
  by_cases h1 : strStartsWith line "Inst " = true
  · rw [if_pos h1] at h
    by_cases h2 : (goFields line).length < 4
    · rw [if_pos h2] at h
      cases h
    · rw [if_neg h2] at h
      dsimp only at h
      by_cases h3 : (goFields line).getD 1 "" ≠ "" ∧
          APTManager.extractBracketVersion (goFields line) ≠ "" ∧
          APTManager.extractParenVersion (goFields line) ≠ ""
      · rw [if_pos h3] at h
        injection h with h4
        subst h4
        exact ⟨rfl, rfl, rfl, rfl, rfl, h3.1, h3.2.1, h3.2.2, h1⟩
      · rw [if_neg h3] at h
        cases h
  · rw [if_neg h1] at h
    cases h

/-- Upgrade-simulation line of the C6 concrete instance, as in the spec and
the repository test. -/
def c6Line : String :=
  "Inst vim [2:8.2.3995-1ubuntu2.16] (2:8.2.3995-1ubuntu2.17 Ubuntu:22.04/jammy-updates [amd64])"

/-- Candidate produced from `c6Line`. -/
def c6Expected : Package :=
  { name := "vim", description := "", currentVersion := "2:8.2.3995-1ubuntu2.16",
    availableVersion := "2:8.2.3995-1ubuntu2.17", needsUpdate := true,
    isSecurityUpdate := false }

/-- Claim C6: the concrete upgrade-simulation line parses to exactly one
candidate with the stated name and versions and `needsUpdate` set; every
candidate `parseAPTUpgrade` ever emits has non-empty name, current version
and available version; and every emitted candidate takes its current version
from the first bracketed token span and its available version from the token
after the first opening parenthesis of its line's fields. -/
theorem c6_parseAPTUpgrade_extraction :
    APTManager.parseAPTUpgrade c6Line = [c6Expected] ∧
    (∀ output p, p ∈ APTManager.parseAPTUpgrade output →
      p.needsUpdate = true ∧ p.name ≠ "" ∧ p.currentVersion ≠ "" ∧
        p.availableVersion ≠ "") ∧
    (∀ line p, APTManager.parseAPTUpgradeLine line = some p →
      p.name = (goFields line).getD 1 "" ∧
      p.currentVersion = APTManager.extractBracketVersion (goFields line) ∧
      p.availableVersion = APTManager.extractParenVersion (goFields line)) := by
  refine ⟨by decide, ?_, ?_⟩
  · intro output p hp
    unfold APTManager.parseAPTUpgrade at hp
    rcases List.mem_filterMap.1 hp with ⟨l, -, hl⟩
    have h := parseAPTUpgradeLine_some _ _ hl
    exact ⟨h.1, h.2.2.2.2.2.1, h.2.2.2.2.2.2.1, h.2.2.2.2.2.2.2.1⟩
  · intro line p hp
    have h := parseAPTUpgradeLine_some _ _ hp
    exact ⟨h.2.2.1, h.2.2.2.1, h.2.2.2.2.1⟩

/-- Witness for claim C6: the universally quantified part applied to the
concrete line and its parsed candidate. -/
theorem c6_parseAPTUpgrade_extraction_witness :
    c6Expected.needsUpdate = true ∧ c6Expected.name ≠ "" ∧
    c6Expected.currentVersion ≠ "" ∧ c6Expected.availableVersion ≠ "" :=
  c6_parseAPTUpgrade_extraction.2.1 c6Line c6Expected (by decide)

/-- Counterexample to claim C7 as stated: the line made of two tokens
separated by a tab has two whitespace-delimited tokens ("a" and "b"), so the
claim demands a package named "a" with version "b"; the code splits only on
single space characters (`strings.SplitN(line, " ", 3)`), sees one part, and
skips the line, returning the empty map. -/
theorem c7_counterexample :
    (goFields "a\tb").length = 2 ∧ (goFields "a\tb").getD 0 "" = "a" ∧
    (goFields "a\tb").getD 1 "" = "b" ∧
    APTManager.parseInstalledPackages "a\tb" = [] := by
  decide

/-- Characters without the separator make `splitCharAux` return one part. -/
theorem splitCharAux_no_sep (sep : Char) :
    ∀ (cs acc : List Char), sep ∉ cs → splitCharAux sep cs acc = [acc.reverse ++ cs] := by
  intro cs
  induction cs with
  | nil => intro acc _; simp [splitCharAux]
  | cons c t ih =>
    intro acc h
    have hcne : ¬(c = sep) := fun he => h (he ▸ List.mem_cons_self c t)
    have hts : sep ∉ t := fun ht => h (List.mem_cons_of_mem c ht)
    unfold splitCharAux
    rw [if_neg hcne, ih (c :: acc) hts]
    simp

/-- Rebuilding a string from its own characters is the identity. -/
theorem ofChars_data (s : String) : ofChars s.data = s := rfl

/-- A string without a newline is a single line. -/
theorem splitLines_single (l : String) (hnl : '\n' ∉ l.data) : splitLines l = [l] := by
  unfold splitLines
  rw [splitCharAux_no_sep '\n' l.data [] hnl]
  simp [ofChars_data]

/-- Claim C7 amended: a non-continuation, non-blank line is split into at
most 3 parts at single space characters (Go `strings.SplitN(line, " ", 3)`,
so a tab is not a separator and consecutive spaces yield empty parts); the
first part names the package, the second is its version, the remainder is the
description; a line with fewer than 2 such parts is skipped and clears the
continuation context. The concrete vim line parses as the spec states, and a
skipped line leaves a following indented line with no continuation target. -/
theorem c7_parseInstalledPackages_line (l : String) (hnl : '\n' ∉ l.data)
    (hcont : strStartsWith l " " = false) (hne : trimSpace l ≠ "") :
    (APTManager.parseInstalledPackages l =
      (if (splitNSpace (trimSpace l) 3).length < 2 then []
       else [((splitNSpace (trimSpace l) 3).getD 0 "",
              { name := (splitNSpace (trimSpace l) 3).getD 0 "",
                description := (splitNSpace (trimSpace l) 3).getD 2 "",
                currentVersion := (splitNSpace (trimSpace l) 3).getD 1 "",
                availableVersion := "", needsUpdate := false,
                isSecurityUpdate := false })])) ∧
    APTManager.parseInstalledPackages
        "vim 2:8.2.3995-1ubuntu2.17 Vi IMproved - enhanced vi editor" =
      [("vim", { name := "vim", description := "Vi IMproved - enhanced vi editor",
                 currentVersion := "2:8.2.3995-1ubuntu2.17", availableVersion := "",
                 needsUpdate := false, isSecurityUpdate := false })] ∧
    APTManager.parseInstalledPackages "a\n b" = [] := by
  refine ⟨?_, by decide, by decide⟩
  unfold APTManager.parseInstalledPackages
  rw [splitLines_single l hnl]
  rw [List.foldl_cons, List.foldl_nil]
  unfold APTManager.installedStep
  rw [if_neg hne, hcont]
  by_cases hp : (splitNSpace (trimSpace l) 3).length < 2
  · rw [if_pos hp] at *
    simp [hp]
  · rw [if_neg hp]
    simp [hp, APTManager.mapUpsert]

/-- Witness for the amended claim C7 at a concrete single-space line. -/
theorem c7_parseInstalledPackages_line_witness :
    (APTManager.parseInstalledPackages "gawk 5.1.0 GNU awk" =
      (if (splitNSpace (trimSpace "gawk 5.1.0 GNU awk") 3).length < 2 then []
       else [((splitNSpace (trimSpace "gawk 5.1.0 GNU awk") 3).getD 0 "",
              { name := (splitNSpace (trimSpace "gawk 5.1.0 GNU awk") 3).getD 0 "",
                description := (splitNSpace (trimSpace "gawk 5.1.0 GNU awk") 3).getD 2 "",
                currentVersion := (splitNSpace (trimSpace "gawk 5.1.0 GNU awk") 3).getD 1 "",
                availableVersion := "", needsUpdate := false,
                isSecurityUpdate := false })])) ∧
    APTManager.parseInstalledPackages
        "vim 2:8.2.3995-1ubuntu2.17 Vi IMproved - enhanced vi editor" =
      [("vim", { name := "vim", description := "Vi IMproved - enhanced vi editor",
                 currentVersion := "2:8.2.3995-1ubuntu2.17", availableVersion := "",
                 needsUpdate := false, isSecurityUpdate := false })] ∧
    APTManager.parseInstalledPackages "a\n b" = [] :=
  c7_parseInstalledPackages_line "gawk 5.1.0 GNU awk" (by decide) (by decide) (by decide)

/-! DNF/YUM source parsing, from `internal/packages/dnf.go` (`DNFManager`).
The installed map is `map[string]string` (name to version, indexing a missing
key gives ""), and the last-resort re-invocation of the package manager's
"list installed <name>" command is modelled by an oracle from the package
name to the command's captured output (`none` when the command fails). -/

namespace DNFManager

/-- Go `map[string]string` indexing with its zero-value default. -/
def lookupStr : List (String × String) → String → String
  | [], _ => ""
  | (k0, v0) :: rest, k => if k0 = k then v0 else lookupStr rest k

/-- The architecture suffixes recognised by the resolution heuristics. -/
def archSuffixes : List String := ["x86_64", "i686", "i386", "noarch", "aarch64", "arm64"]

/-- Index of the last dot of a character list (Go `strings.LastIndex(s, ".")`
restricted to found). -/
def lastDotIdx : List Char → Option Nat
  | [] => none
  | c :: cs =>
    match lastDotIdx cs with
    | some i => some (i + 1)
    | none => if c = '.' then some 0 else none

/-- Strip a trailing recognised architecture suffix introduced by a dot at a
positive index; otherwise return the name unchanged (dnf.go, both the
candidate-side and the installed-side stripping use this shape). -/
def stripArchSuffix (s : String) : String :=
  match lastDotIdx s.data with
  | some idx =>
    if 0 < idx ∧ archSuffixes.contains (ofChars (s.data.drop (idx + 1))) = true then
      ofChars (s.data.take idx)
    else s
  | none => s

/-- Linear scan of the installed map (dnf.go inner loop): first entry whose
arch-stripped key equals the arch-stripped candidate name or the raw
candidate name decides the version. -/
def scanInstalledForBase : List (String × String) → String → String → String
  | [], _, _ => ""
  | (installedName, version) :: rest, basePackageName, packageName =>
    if stripArchSuffix installedName = basePackageName ∨
        stripArchSuffix installedName = packageName then version
    else scanInstalledForBase rest basePackageName packageName

/-- Scan of the fallback command output (dnf.go): the first line containing
the package name, not containing "Installed" or "Available", and having at
least two fields contributes its second field. -/
def fallbackScan (packageName : String) : List String → String
  | [] => ""
  | l :: rest =>
    if containsSubstr l packageName = true ∧ containsSubstr l "Installed" = false ∧
        containsSubstr l "Available" = false ∧ 2 ≤ (goFields l).length then
      (goFields l).getD 1 ""
    else fallbackScan packageName rest

/-- Last-resort strategy (dnf.go): re-invoke "list installed <name>" (the
oracle) and scan its output; a failing command contributes "". -/
def listInstalledCmdVersion (oracle : String → Option String) (packageName : String) : String :=
  match oracle packageName with
  | none => ""
  | some out => fallbackScan packageName (splitLines out)

/-- Current-version resolution of `parseUpgradablePackages`, with the exact
nesting of dnf.go: exact lookup; then, only when the candidate name carries a
recognised architecture suffix, lookup of the stripped name; then the linear
scan; then the fallback command. -/
def resolveCurrentVersion (installed : List (String × String))
    (oracle : String → Option String) (packageName : String) : String :=
  let v0 := lookupStr installed packageName
  let v1 :=
    if v0 = "" then
      let basePackageName := stripArchSuffix packageName
      let vb := if basePackageName ≠ packageName then lookupStr installed basePackageName else ""
      if vb = "" then scanInstalledForBase installed basePackageName packageName else vb
    else v0
  if v1 = "" then listInstalledCmdVersion oracle packageName else v1

/-- Header/banner test of the check-update scanner loop. -/
def dnfSkipLine (line : String) : Bool :=
  line = "" || containsSubstr line "Loaded plugins" ||
    containsSubstr line "Last metadata" || strStartsWith line "Loading"

/-- Body of the `parseUpgradablePackages` scanner loop on one raw line. -/
def parseUpgradableLine (installed : List (String × String))
    (oracle : String → Option String) (rawLine : String) : Option Package :=
  let line := trimSpace rawLine
  if dnfSkipLine line = true then none
  else
    let fields := goFields line
    if fields.length < 3 then none
    else
      let packageName := fields.getD 0 ""
      let availableVersion := fields.getD 1 ""
      let repo := fields.getD 2 ""
      let currentVersion := resolveCurrentVersion installed oracle packageName
      if packageName ≠ "" ∧ currentVersion ≠ "" ∧ availableVersion ≠ "" then
        some { name := packageName, description := "", currentVersion := currentVersion,
               availableVersion := availableVersion, needsUpdate := true,
               isSecurityUpdate := containsSubstr (toLowerStr repo) "security" }
      else none

/-- Model of `DNFManager.parseUpgradablePackages`: scan the check-update
output line by line; a dropped candidate never fails the batch (the function
is total and returns the remaining candidates). -/
def parseUpgradablePackages (output : String) (installed : List (String × String))
    (oracle : String → Option String) : List Package :=
  (splitLines output).filterMap (parseUpgradableLine installed oracle)

/-- Strategy (a) of the claim: exact lookup. -/
def stratExact (installed : List (String × String)) (packageName : String) : String :=
  lookupStr installed packageName

/-- Strategy (b) of the claim: lookup after stripping a recognised
architecture suffix from the candidate name (contributing nothing when the
name carries no such suffix). -/
def stratStrip (installed : List (String × String)) (packageName : String) : String :=
  if stripArchSuffix packageName ≠ packageName then
    lookupStr installed (stripArchSuffix packageName)
  else ""

/-- Strategy (c) of the claim: linear scan with suffix-stripped comparison. -/
def stratScan (installed : List (String × String)) (packageName : String) : String :=
  scanInstalledForBase installed (stripArchSuffix packageName) packageName

/-- Strategy (d) of the claim: the "list installed <name>" re-invocation. -/
def stratCmd (oracle : String → Option String) (packageName : String) : String :=
  listInstalledCmdVersion oracle packageName

/-- First non-empty result of a strategy list ("attempted in order until one
succeeds"; "" when all fail). -/
def firstNonEmpty : List String → String
  | [] => ""
  | s :: rest => if s = "" then firstNonEmpty rest else s

end DNFManager

example :
    DNFManager.resolveCurrentVersion [("bash.x86_64", "5.1")] (fun _ => none) "bash" = "5.1" := by
  decide

example :
    DNFManager.resolveCurrentVersion [("vim", "1.0")] (fun _ => none) "vim.x86_64" = "1.0" := by
  decide

example :
    DNFManager.resolveCurrentVersion [] (fun _ => some "vim.x86_64 2.0 @repo") "vim" = "2.0" := by
  decide

example :
    DNFManager.parseUpgradablePackages "vim.x86_64 9.0 updates-security\n"
      [("vim.x86_64", "8.2")] (fun _ => none) =
    [{ name := "vim.x86_64", description := "", currentVersion := "8.2",
       availableVersion := "9.0", needsUpdate := true, isSecurityUpdate := true }] := by
  decide

/-- Claim C8: the current version of a DNF check-update candidate is resolved
by the first succeeding strategy among (a) exact installed-map lookup,
(b) lookup after stripping a recognised architecture suffix, (c) linear scan
with suffix-stripped comparison and (d) the "list installed <name>"
re-invocation; and on any non-header line with at least 3 fields a candidate
is emitted (with `needsUpdate = true`) exactly when name, resolved current
version and available version are all non-empty, and is dropped otherwise
(the parse is total: a dropped candidate never fails the batch). -/
theorem c8_dnf_current_version_resolution (installed : List (String × String))
    (oracle : String → Option String) :
    (∀ packageName, DNFManager.resolveCurrentVersion installed oracle packageName =
      DNFManager.firstNonEmpty
        [DNFManager.stratExact installed packageName,
         DNFManager.stratStrip installed packageName,
         DNFManager.stratScan installed packageName,
         DNFManager.stratCmd oracle packageName]) ∧
    (∀ rawLine, DNFManager.dnfSkipLine (trimSpace rawLine) = false →
      3 ≤ (goFields (trimSpace rawLine)).length →
      DNFManager.parseUpgradableLine installed oracle rawLine =
        (if (goFields (trimSpace rawLine)).getD 0 "" ≠ "" ∧
            DNFManager.resolveCurrentVersion installed oracle
              ((goFields (trimSpace rawLine)).getD 0 "") ≠ "" ∧
            (goFields (trimSpace rawLine)).getD 1 "" ≠ "" then
          some { name := (goFields (trimSpace rawLine)).getD 0 "",
                 description := "",
                 currentVersion := DNFManager.resolveCurrentVersion installed oracle
                   ((goFields (trimSpace rawLine)).getD 0 ""),
                 availableVersion := (goFields (trimSpace rawLine)).getD 1 "",
                 needsUpdate := true,
                 isSecurityUpdate :=
                   containsSubstr (toLowerStr ((goFields (trimSpace rawLine)).getD 2 ""))
                     "security" }
         else none)) := by
  constructor
  · intro packageName
    have hsingle : ∀ s, DNFManager.firstNonEmpty [s] = s := by
      intro s
      by_cases h : s = "" <;> simp [DNFManager.firstNonEmpty, h]
    unfold DNFManager.resolveCurrentVersion
      DNFManager.stratExact DNFManager.stratStrip DNFManager.stratScan DNFManager.stratCmd
    dsimp only
    split_ifs <;> simp_all [DNFManager.firstNonEmpty] <;>
      (try split_ifs <;> simp_all)
  · intro rawLine hskip hlen
    unfold DNFManager.parseUpgradableLine
    dsimp only
    rw [hskip]
    rw [if_neg (by decide : ¬(false = true))]
    rw [if_neg (by omega : ¬(goFields (trimSpace rawLine)).length < 3)]

/-- Installed map of the concrete C8 instance. -/
def c8Installed : List (String × String) := [("vim", "8.2")]

/-- Fallback-command oracle of the concrete C8 instance (command fails). -/
def c8Oracle : String → Option String := fun _ => none

/-- Witness for claim C8 at a concrete candidate resolved by strategy (b). -/
theorem c8_dnf_current_version_resolution_witness :
    DNFManager.resolveCurrentVersion c8Installed c8Oracle "vim.x86_64" =
      DNFManager.firstNonEmpty
        [DNFManager.stratExact c8Installed "vim.x86_64",
         DNFManager.stratStrip c8Installed "vim.x86_64",
         DNFManager.stratScan c8Installed "vim.x86_64",
         DNFManager.stratCmd c8Oracle "vim.x86_64"] ∧
    DNFManager.parseUpgradableLine c8Installed c8Oracle "vim.x86_64 9.0 updates" =
      (if (goFields (trimSpace "vim.x86_64 9.0 updates")).getD 0 "" ≠ "" ∧
          DNFManager.resolveCurrentVersion c8Installed c8Oracle
            ((goFields (trimSpace "vim.x86_64 9.0 updates")).getD 0 "") ≠ "" ∧
          (goFields (trimSpace "vim.x86_64 9.0 updates")).getD 1 "" ≠ "" then
        some { name := (goFields (trimSpace "vim.x86_64 9.0 updates")).getD 0 "",
               description := "",
               currentVersion := DNFManager.resolveCurrentVersion c8Installed c8Oracle
                 ((goFields (trimSpace "vim.x86_64 9.0 updates")).getD 0 ""),
               availableVersion := (goFields (trimSpace "vim.x86_64 9.0 updates")).getD 1 "",
               needsUpdate := true,
               isSecurityUpdate :=
                 containsSubstr
                   (toLowerStr ((goFields (trimSpace "vim.x86_64 9.0 updates")).getD 2 ""))
                   "security" }
       else none) :=
  ⟨(c8_dnf_current_version_resolution c8Installed c8Oracle).1 "vim.x86_64",
   (c8_dnf_current_version_resolution c8Installed c8Oracle).2 "vim.x86_64 9.0 updates"
     (by decide) (by decide)⟩

/-! Windows Update source, from the Windows update manager source
(`WindowsUpdateManager`) and the top-level manager (`Manager`, packages.go).
Each COM property read that can fail is modelled as an `Option`-valued field
of the item; a collection-level read failure is a flag of the environment. -/

namespace WindowsUpdateManager

/-- Result of reading an update's `Identity`: the revision number and the
update identifier, each `none` when the corresponding property read fails. -/
structure IdentityInfo where
  rev : Option Int
  updateID : Option String
deriving DecidableEq

/-- One entry of the `Updates` collection, as the accessors observe it:
each field is the outcome of the corresponding COM property read. A category
entry is `none` when its item or `Name` read fails. -/
structure UpdateItem where
  titleProp : Option String
  kbIdsProp : Option (List String)
  identityProp : Option IdentityInfo
  msrcSeverity : Option String
  categoriesProp : Option (List (Option String))
deriving DecidableEq

/-- Model of `getKBArticleID`: first KB id of the collection; "" on a failed
read or an empty collection. -/
def getKBArticleID (it : UpdateItem) : String :=
  match it.kbIdsProp with
  | none => ""
  | some [] => ""
  | some (x :: _) => x

/-- Model of `getUpdateVersion`: "" when `Identity` or `RevisionNumber` is
unreadable, "rev.<n>" when only `UpdateID` is unreadable, else
"<updateID>.<n>". -/
def getUpdateVersion (it : UpdateItem) : String :=
  match it.identityProp with
  | none => ""
  | some idn =>
    match idn.rev with
    | none => ""
    | some r =>
      match idn.updateID with
      | none => "rev." ++ toString r
      | some uid => uid ++ "." ++ toString r

/-- Model of `isSecurityUpdate`: a readable non-empty MSRC severity, or a
readable category named "Security Updates" or "Critical Updates". -/
def isSecurityUpdateOf (it : UpdateItem) : Bool :=
  (match it.msrcSeverity with
   | some s => s ≠ ""
   | none => false) ||
  (match it.categoriesProp with
   | none => false
   | some cats =>
     cats.any (fun c =>
       match c with
       | some n => n = "Security Updates" || n = "Critical Updates"
       | none => false))

/-- Model of `parseUpdate`: `none` exactly on a failed `Title` read;
otherwise the package named by the KB id (or the title), with the version in
`currentVersion` for the installed-search criteria and in `availableVersion`
otherwise, and `needsUpdate` set for the non-installed criteria. -/
def parseUpdate (it : UpdateItem) (criteria : String) : Option Package :=
  match it.titleProp with
  | none => none
  | some title =>
    let kbID := getKBArticleID it
    let version := getUpdateVersion it
    let isSec := isSecurityUpdateOf it
    let name := if kbID ≠ "" then "KB" ++ kbID else title
    let isInstalled := containsSubstr criteria "IsInstalled=1"
    some { name := name, description := title,
           currentVersion := if isInstalled then version else "",
           availableVersion := if isInstalled then "" else version,
           needsUpdate := !isInstalled, isSecurityUpdate := isSec }

/-- Outcomes of the session-level COM operations of one `searchUpdates` call,
together with the items of the resulting `Updates` collection (`none` marks a
failed `Item` property access). -/
structure ComEnv where
  initFail : Bool
  createFail : Bool
  queryFail : Bool
  searcherFail : Bool
  searchFail : Bool
  updatesFail : Bool
  countFail : Bool
  items : List (Option UpdateItem)
deriving DecidableEq

/-- All session-level operations succeeded. -/
def sessionOk (e : ComEnv) : Bool :=
  !e.initFail && !e.createFail && !e.queryFail && !e.searcherFail &&
    !e.searchFail && !e.updatesFail && !e.countFail

/-- Model of `searchUpdates`: an error for each session-level failure, in
program order; otherwise the packages parsed from the readable items, one bad
item never aborting the batch. -/
def searchUpdates (e : ComEnv) (criteria : String) : Except String (List Package) :=
  if e.initFail then Except.error "COM initialization failed"
  else if e.createFail then Except.error "failed to create UpdateSession"
  else if e.queryFail then Except.error "failed to query UpdateSession interface"
  else if e.searcherFail then Except.error "failed to create UpdateSearcher"
  else if e.searchFail then Except.error "update search failed"
  else if e.updatesFail then Except.error "failed to get Updates collection"
  else if e.countFail then Except.error "failed to get update count"
  else Except.ok (e.items.filterMap (fun o => o.bind (fun it => parseUpdate it criteria)))

/-- Model of `GetInstalledUpdates`. -/
def GetInstalledUpdates (e : ComEnv) : Except String (List Package) :=
  searchUpdates e "IsInstalled=1"

/-- Model of `GetAvailableUpdates`. -/
def GetAvailableUpdates (e : ComEnv) : Except String (List Package) :=
  searchUpdates e "IsInstalled=0 AND IsHidden=0"

end WindowsUpdateManager

namespace Manager

/-- Error fallback of `Manager.GetPackages` (packages.go): a failed search
contributes the empty list. -/
def orEmptyList : Except String (List Package) → List Package
  | Except.ok l => l
  | Except.error _ => []

/-- Model of `Manager.GetPackages` (packages.go) over the outcomes of the two
searches: concatenate installed results then available results, always
returning a nil error. -/
def GetPackages (installedResult availableResult : Except String (List Package)) :
    Except String (List Package) :=
  Except.ok (orEmptyList installedResult ++ orEmptyList availableResult)

/-- `Manager.GetPackages` composed with the two COM searches. -/
def GetPackagesFromEnv (envInstalled envAvailable : WindowsUpdateManager.ComEnv) :
    Except String (List Package) :=
  GetPackages (WindowsUpdateManager.GetInstalledUpdates envInstalled)
    (WindowsUpdateManager.GetAvailableUpdates envAvailable)

end Manager

example :
    WindowsUpdateManager.parseUpdate
      { titleProp := some "Update for Windows", kbIdsProp := some ["5031356"],
        identityProp := some { rev := some 200, updateID := some "abc" },
        msrcSeverity := some "Important", categoriesProp := none }
      "IsInstalled=1" =
    some { name := "KB5031356", description := "Update for Windows",
           currentVersion := "abc.200", availableVersion := "",
           needsUpdate := false, isSecurityUpdate := true } := by decide

/-- Claim C9: `searchUpdates` returns a package list exactly when every
session-level COM operation succeeds, in which case the list is the parse of
the readable items (a failed `Item` access or `Title` read only skips that
item); an error can only come from a session-, searcher-, search- or
collection-level failure. -/
theorem c9_searchUpdates_item_failures (e : WindowsUpdateManager.ComEnv) (criteria : String) :
    ((∃ l, WindowsUpdateManager.searchUpdates e criteria = Except.ok l) ↔
      WindowsUpdateManager.sessionOk e = true) ∧
    (WindowsUpdateManager.sessionOk e = true →
      WindowsUpdateManager.searchUpdates e criteria =
        Except.ok (e.items.filterMap
          (fun o => o.bind (fun it => WindowsUpdateManager.parseUpdate it criteria)))) ∧
    (∀ it, WindowsUpdateManager.parseUpdate it criteria = none ↔ it.titleProp = none) := by
  refine ⟨?_, ?_, ?_⟩
  · rcases e with ⟨i, c, q, sr, sf, u, ct, its⟩
    cases i <;> cases c <;> cases q <;> cases sr <;> cases sf <;> cases u <;> cases ct <;>
      simp [WindowsUpdateManager.searchUpdates, WindowsUpdateManager.sessionOk]
  · intro h
    rcases e with ⟨i, c, q, sr, sf, u, ct, its⟩
    cases i <;> cases c <;> cases q <;> cases sr <;> cases sf <;> cases u <;> cases ct <;>
      simp_all [WindowsUpdateManager.searchUpdates, WindowsUpdateManager.sessionOk]
  · intro it
    cases h : it.titleProp with
    | none => simp [WindowsUpdateManager.parseUpdate, h]
    | some t => simp [WindowsUpdateManager.parseUpdate, h]

/-- Readable item of the C9 concrete environment. -/
def c9GoodItem : WindowsUpdateManager.UpdateItem :=
  { titleProp := some "Update A", kbIdsProp := some ["1"],
    identityProp := some { rev := some 3, updateID := some "id" },
    msrcSeverity := none, categoriesProp := none }

/-- Item whose `Title` read fails in the C9 concrete environment. -/
def c9BadItem : WindowsUpdateManager.UpdateItem :=
  { titleProp := none, kbIdsProp := none, identityProp := none,
    msrcSeverity := none, categoriesProp := none }

/-- C9 concrete environment: all session-level operations succeed; the
collection has a readable item, an item whose `Item` access fails, and an
item whose `Title` read fails. -/
def c9Env : WindowsUpdateManager.ComEnv :=
  { initFail := false, createFail := false, queryFail := false, searcherFail := false,
    searchFail := false, updatesFail := false, countFail := false,
    items := [some c9GoodItem, none, some c9BadItem] }

/-- Witness for claim C9: with two of three items unreadable, the search
still returns a nil error and the one parsed package. -/
theorem c9_searchUpdates_item_failures_witness :
    WindowsUpdateManager.searchUpdates c9Env "IsInstalled=1" =
      Except.ok [{ name := "KB1", description := "Update A", currentVersion := "id.3",
                   availableVersion := "", needsUpdate := false,
                   isSecurityUpdate := false }] :=
  ((c9_searchUpdates_item_failures c9Env "IsInstalled=1").2.1 rfl).trans (by rfl)

/-- Claim C10: the top-level Windows `Manager.GetPackages` never returns an
error; each failed search is replaced by the empty list while the other
search's results are kept, and two successes concatenate. -/
theorem c10_GetPackages_no_error (ri ra : Except String (List Package)) :
    (∀ e, Manager.GetPackages ri ra ≠ Except.error e) ∧
    (∀ li la, ri = Except.ok li → ra = Except.ok la →
      Manager.GetPackages ri ra = Except.ok (li ++ la)) ∧
    (∀ er la, ri = Except.error er → ra = Except.ok la →
      Manager.GetPackages ri ra = Except.ok la) ∧
    (∀ li ea, ri = Except.ok li → ra = Except.error ea →
      Manager.GetPackages ri ra = Except.ok li) ∧
    (∀ er ea, ri = Except.error er → ra = Except.error ea →
      Manager.GetPackages ri ra = Except.ok []) := by
  refine ⟨?_, ?_, ?_, ?_, ?_⟩
  · intro e
    simp [Manager.GetPackages]
  · intro li la h1 h2
    subst h1; subst h2
    simp [Manager.GetPackages, Manager.orEmptyList]
  · intro er la h1 h2
    subst h1; subst h2
    simp [Manager.GetPackages, Manager.orEmptyList]
  · intro li ea h1 h2
    subst h1; subst h2
    simp [Manager.GetPackages, Manager.orEmptyList]
  · intro er ea h1 h2
    subst h1; subst h2
    simp [Manager.GetPackages, Manager.orEmptyList]

/-- Package of the C10 concrete instance. -/
def c10Pkg : Package :=
  { name := "KB42", description := "An update", currentVersion := "",
    availableVersion := "u.7", needsUpdate := true, isSecurityUpdate := false }

/-- Witness for claim C10: installed search failed, available search
succeeded; the result is the available list with a nil error. -/
theorem c10_GetPackages_no_error_witness :
    Manager.GetPackages (Except.error "update search failed") (Except.ok [c10Pkg]) =
      Except.ok [c10Pkg] :=
  (c10_GetPackages_no_error (Except.error "update search failed")
    (Except.ok [c10Pkg])).2.2.1 "update search failed" [c10Pkg] rfl rfl

/-- Installed-search item of the C5 concrete instance. -/
def c5ItemInstalled : WindowsUpdateManager.UpdateItem :=
  { titleProp := some "Cumulative Update", kbIdsProp := some ["5031356"],
    identityProp := some { rev := some 1, updateID := some "u" },
    msrcSeverity := none, categoriesProp := none }

/-- Available-search item of the C5 concrete instance: the same update, seen
by the second search with a newer revision. -/
def c5ItemAvailable : WindowsUpdateManager.UpdateItem :=
  { titleProp := some "Cumulative Update", kbIdsProp := some ["5031356"],
    identityProp := some { rev := some 2, updateID := some "u" },
    msrcSeverity := none, categoriesProp := none }

/-- C5 environment of the installed-updates search. -/
def c5EnvInstalled : WindowsUpdateManager.ComEnv :=
  { initFail := false, createFail := false, queryFail := false, searcherFail := false,
    searchFail := false, updatesFail := false, countFail := false,
    items := [some c5ItemInstalled] }

/-- C5 environment of the available-updates search. -/
def c5EnvAvailable : WindowsUpdateManager.ComEnv :=
  { initFail := false, createFail := false, queryFail := false, searcherFail := false,
    searchFail := false, updatesFail := false, countFail := false,
    items := [some c5ItemAvailable] }

/-- Package the installed search produces in the C5 instance. -/
def c5PkgInstalled : Package :=
  { name := "KB5031356", description := "Cumulative Update", currentVersion := "u.1",
    availableVersion := "", needsUpdate := false, isSecurityUpdate := false }

/-- Package the available search produces in the C5 instance. -/
def c5PkgAvailable : Package :=
  { name := "KB5031356", description := "Cumulative Update", currentVersion := "",
    availableVersion := "u.2", needsUpdate := true, isSecurityUpdate := false }

/-- Counterexample to claim C5 as stated: the same update (name "KB5031356")
is produced by both the installed and the available search, and the list
returned by the top-level `Manager.GetPackages` contains that name twice —
there is no per-name deduplication. -/
theorem c5_counterexample :
    Manager.GetPackagesFromEnv c5EnvInstalled c5EnvAvailable =
      Except.ok [c5PkgInstalled, c5PkgAvailable] ∧
    ([c5PkgInstalled, c5PkgAvailable].map Package.name).count "KB5031356" = 2 := by
  exact ⟨rfl, by decide⟩

/-- Claim C5 amended: the Windows top-level `Manager.GetPackages` returns the
concatenation of the installed-search results followed by the
available-search results (substituting the empty list for a failed search)
with no per-package deduplication: every name occurs exactly as many times as
in the two result lists together, so a package found by both searches appears
twice. -/
theorem c5_GetPackages_concatenation (ri ra : Except String (List Package)) :
    Manager.GetPackages ri ra =
      Except.ok (Manager.orEmptyList ri ++ Manager.orEmptyList ra) ∧
    (∀ n, ((Manager.orEmptyList ri ++ Manager.orEmptyList ra).map Package.name).count n =
      ((Manager.orEmptyList ri).map Package.name).count n +
        ((Manager.orEmptyList ra).map Package.name).count n) := by
  refine ⟨rfl, ?_⟩
  intro n
  simp

/-- Item of the C1 failing input: the installed-updates search returns one
update whose `Title` reads fine but whose `Identity` property read fails, so
`getUpdateVersion` yields "". -/
def c1BadItem : WindowsUpdateManager.UpdateItem :=
  { titleProp := some "2026-01 Cumulative Update", kbIdsProp := some [],
    identityProp := none, msrcSeverity := none, categoriesProp := none }

/-- C1 environment of the installed-updates search (all session-level
operations succeed). -/
def c1EnvInstalled : WindowsUpdateManager.ComEnv :=
  { initFail := false, createFail := false, queryFail := false, searcherFail := false,
    searchFail := false, updatesFail := false, countFail := false,
    items := [some c1BadItem] }

/-- C1 environment of the available-updates search (no updates found). -/
def c1EnvAvailable : WindowsUpdateManager.ComEnv :=
  { initFail := false, createFail := false, queryFail := false, searcherFail := false,
    searchFail := false, updatesFail := false, countFail := false, items := [] }

/-- Package the Windows pipeline emits for the C1 failing input. -/
def c1BadPkg : Package :=
  { name := "2026-01 Cumulative Update", description := "2026-01 Cumulative Update",
    currentVersion := "", availableVersion := "", needsUpdate := false,
    isSecurityUpdate := false }

/-- Claim C1, evaluation at the failing input: when the installed search
returns an item whose `Identity` read fails, the final list of the Windows
top-level `Manager.GetPackages` contains a package with `needsUpdate = false`
and an empty `currentVersion`, violating the invariant (which the repo's own
test `TestGetInstalledUpdates_Integration` also asserts). -/
theorem c1_windows_empty_currentVersion :
    Manager.GetPackagesFromEnv c1EnvInstalled c1EnvAvailable = Except.ok [c1BadPkg] ∧
    c1BadPkg.needsUpdate = false ∧ c1BadPkg.currentVersion = "" ∧
    c1BadPkg.availableVersion = "" := by
  exact ⟨rfl, rfl, rfl, rfl⟩
